import Mathlib

/-!
Verification of the extraterm terminal engine (src/main/src/terminal/Terminal.ts)
against its natural-language specification.

The definitions below are a shallow embedding of the TypeScript source.  Each
definition carries a comment naming the source symbol and lines it embeds.
Machine behaviour of JavaScript string primitives (trim, slice, indexOf,
split(/\s+/), parseInt, substring) is modelled first, on `List Char`, so that
every definition is executable and kernel-reducible.
-/

namespace Extraterm

/-! ## JavaScript string primitives -/

/-- Character class used by JavaScript `String.prototype.trim`, `\s` in the
split regexes, and `parseInt` leading-whitespace skipping (restricted to the
ASCII whitespace characters relevant here). -/
def isJsWhitespace (c : Char) : Bool :=
  (c == ' ') || (c == '\t') || (c == '\n') || (c == '\r') || (c == '\x0b') || (c == '\x0c')

/-- JavaScript `String.prototype.trim`. -/
def jsTrim (s : String) : String :=
  ⟨((s.data.dropWhile isJsWhitespace).reverse.dropWhile isJsWhitespace).reverse⟩

/-- First index of character `c` in a character list, if any. -/
def firstIdxOf (c : Char) : List Char → Option Nat
  | [] => none
  | x :: xs => if x = c then some 0 else (firstIdxOf c xs).map (· + 1)

/-- JavaScript `String.prototype.indexOf` for a single-character needle:
the index of the first occurrence, or `-1` when absent. -/
def jsIndexOfChar (s : String) (c : Char) : Int :=
  match firstIdxOf c s.data with
  | some n => (n : Int)
  | none => -1

/-- JavaScript `String.prototype.slice` with one argument: a negative start
counts from the end of the string (clamped at 0), a start beyond the end
yields the empty string. -/
def jsSliceFrom (s : String) (start : Int) : String :=
  let len : Int := (s.data.length : Int)
  let start' : Int := if start < 0 then max (len + start) 0 else min start len
  ⟨s.data.drop start'.toNat⟩

/-- JavaScript `String.prototype.substring (i)`: drop the first `i`
characters. -/
def jsSubstringFrom (s : String) (i : Nat) : String :=
  ⟨s.data.drop i⟩

/-- Core of `split(/\s+/)`: `prevWs` records whether the previous character was
whitespace (so a run of whitespace produces a single separator), `acc` holds
the current token reversed. -/
def splitWsCore : Bool → List Char → List Char → List (List Char)
  | _, [], acc => [acc.reverse]
  | prevWs, c :: rest, acc =>
    if isJsWhitespace c then
      if prevWs then splitWsCore true rest acc
      else acc.reverse :: splitWsCore true rest []
    else splitWsCore false rest (c :: acc)

/-- JavaScript `String.prototype.split(/\s+/)`: split on maximal whitespace
runs, keeping the empty leading/trailing tokens JavaScript produces (e.g.
`" a".split(/\s+/) = ["", "a"]` and `"".split(/\s+/) = [""]`). -/
def splitWs (s : String) : List String :=
  (splitWsCore false s.data []).map (fun cs => (⟨cs⟩ : String))

/-- Accumulate a decimal digit run; `acc = none` until the first digit is
seen (JavaScript `parseInt` yields `NaN` when there is no digit). -/
def takeDigitsVal : List Char → Option Nat → Option Nat
  | [], acc => acc
  | c :: rest, acc =>
    if c.isDigit then takeDigitsVal rest (some ((acc.getD 0) * 10 + (c.toNat - '0'.toNat)))
    else acc

/-- JavaScript `Number.parseInt(s, 10)`: skip leading whitespace, read an
optional sign and then a maximal run of decimal digits, ignoring any trailing
characters; `none` models the `NaN` result when no digit is found. -/
def jsParseIntDec (s : String) : Option Int :=
  let cs := s.data.dropWhile isJsWhitespace
  match cs with
  | '-' :: rest => (takeDigitsVal rest none).map (fun n => -(n : Int))
  | '+' :: rest => (takeDigitsVal rest none).map (fun n => (n : Int))
  | _ => (takeDigitsVal cs none).map (fun n => (n : Int))

/-! ## Application mode protocol (Terminal.ts lines 104-113, 196-206, 1132-1244)

The `Terminal` class fields touched by the application-mode handlers are
`#applicationMode`, `#applicationModeData` and `#bracketStyle`; they are
gathered in `AppModeState`.  The sub-handlers invoked from
`#handleApplicationModeEnd` (`#handleApplicationModeBracketStart`,
`#handleApplicationModeBracketEnd`, `#handleRequestFrame`) mutate state
outside this slice and are embedded separately below. -/

/-- Source: `const enum ApplicationMode` (Terminal.ts:104-110). -/
inductive ApplicationMode
  | APPLICATION_MODE_NONE
  | APPLICATION_MODE_OUTPUT_BRACKET_START
  | APPLICATION_MODE_OUTPUT_BRACKET_END
  | APPLICATION_MODE_REQUEST_FRAME
  | APPLICATION_MODE_SHOW_FILE
deriving DecidableEq, Repr

/-- Source: `TermApi.ApplicationModeResponseAction` as used by Terminal.ts
(`ABORT` and `CONTINUE` are produced directly; `PAUSE` can come back from the
download collaborator). -/
inductive ApplicationModeResponseAction
  | ABORT
  | CONTINUE
  | PAUSE
deriving DecidableEq, Repr

/-- The Terminal fields driving the application-mode protocol:
`#applicationMode` (Terminal.ts:198), `#applicationModeData` (196) and
`#bracketStyle` (201).  `applicationModeData = none` models the `null`
initial/cleared value. -/
structure AppModeState where
  applicationMode : ApplicationMode
  applicationModeData : Option String
  bracketStyle : Option String
deriving DecidableEq, Repr

/-- Result of one application-mode handler call: the updated state slice and
the returned `TermApi.ApplicationModeResponse` action. -/
structure AppModeStepResult where
  state : AppModeState
  action : ApplicationModeResponseAction
deriving DecidableEq, Repr

/-- Source: `#handleApplicationModeStart(params)` (Terminal.ts:1132-1188).
`cookie` is the per-session `#cookie` (set once in the constructor,
Terminal.ts:270).  `downloadStart` models the external
`#downloadHandler.handleStart(params.slice(2))` call of the SHOW_FILE case.
The handler first resets the accumulation buffer to `""`, then aborts on a
missing or mismatched cookie, then selects the sub-mode from the second
parameter (`"2"`..`"5"` are the string renderings of the enum values). -/
def handleApplicationModeStart (downloadStart : List String → ApplicationModeResponseAction)
    (cookie : String) (st : AppModeState) (params : List String) : AppModeStepResult :=
  let st := { st with applicationModeData := some "" }
  match params with
  | [] => { state := st, action := .ABORT }
  | p0 :: rest =>
    if p0 ≠ cookie then
      { state := st, action := .ABORT }
    else
      match rest with
      | [] => { state := st, action := .ABORT }
      | p1 :: rest2 =>
        if p1 = "2" then
          { state := { st with
              applicationMode := .APPLICATION_MODE_OUTPUT_BRACKET_START,
              bracketStyle := rest2.head? },
            action := .CONTINUE }
        else if p1 = "3" then
          { state := { st with applicationMode := .APPLICATION_MODE_OUTPUT_BRACKET_END },
            action := .CONTINUE }
        else if p1 = "4" then
          { state := { st with applicationMode := .APPLICATION_MODE_REQUEST_FRAME },
            action := .CONTINUE }
        else if p1 = "5" then
          { state := { st with applicationMode := .APPLICATION_MODE_SHOW_FILE },
            action := downloadStart rest2 }
        else
          { state := st, action := .CONTINUE }

/-- Source: `#handleApplicationModeEnd()` (Terminal.ts:1216-1244).
`downloadStop` models the external `#downloadHandler.handleStop()` result.
The BRACKET_START / BRACKET_END / REQUEST_FRAME cases run their sub-handler
(which only touches state outside this slice, embedded separately) and fall
through to the reset of `#applicationMode` and `#applicationModeData`; the
SHOW_FILE case returns early (`return this.#downloadHandler.handleStop();`)
and therefore skips that reset. -/
def handleApplicationModeEnd (downloadStop : ApplicationModeResponseAction)
    (st : AppModeState) : AppModeStepResult :=
  match st.applicationMode with
  | .APPLICATION_MODE_OUTPUT_BRACKET_START =>
    { state := { st with applicationMode := .APPLICATION_MODE_NONE, applicationModeData := none },
      action := .CONTINUE }
  | .APPLICATION_MODE_OUTPUT_BRACKET_END =>
    { state := { st with applicationMode := .APPLICATION_MODE_NONE, applicationModeData := none },
      action := .CONTINUE }
  | .APPLICATION_MODE_REQUEST_FRAME =>
    { state := { st with applicationMode := .APPLICATION_MODE_NONE, applicationModeData := none },
      action := .CONTINUE }
  | .APPLICATION_MODE_SHOW_FILE =>
    { state := st, action := downloadStop }
  | .APPLICATION_MODE_NONE =>
    { state := { st with applicationMode := .APPLICATION_MODE_NONE, applicationModeData := none },
      action := .CONTINUE }

/-! ## Command-line cleaning at BRACKET_START (Terminal.ts:1246-1293) -/

/-- Source: the clean-command-line computation of
`#handleApplicationModeBracketStart` (Terminal.ts:1253-1259): under bracket
style `"bash"` the accumulated payload is trimmed, sliced from the first
space (`trimmed.slice(trimmed.indexOf(" "))`) and trimmed again; under any
other style the payload is used as is. -/
def cleanCommandLineOf (bracketStyle : Option String) (applicationModeData : String) : String :=
  if bracketStyle = some "bash" then
    let trimmed := jsTrim applicationModeData
    jsTrim (jsSliceFrom trimmed (jsIndexOfChar trimmed ' '))
  else
    applicationModeData

/-- Specification-side reading of §4.3 BRACKET_START: the history-number
prefix is stripped by "slicing at the first whitespace" of the trimmed
payload, then trimming the remainder.  This definition follows the spec's
words and is compared against `cleanCommandLineOf`; the source slices at the
first space character instead. -/
def specBashCleanAtWhitespace (payload : String) : String :=
  let trimmed := jsTrim payload
  jsTrim ⟨trimmed.data.dropWhile (fun c => !(isJsWhitespace c))⟩

/-- Specification-side reading of the amended claim: slice the trimmed
payload at its first space character (U+0020) and trim the remainder. -/
def specBashCleanAtSpace (payload : String) : String :=
  let trimmed := jsTrim payload
  jsTrim ⟨trimmed.data.dropWhile (fun c => c ≠ ' ')⟩

/-! ## Frame rules and the frame-creation decision (Terminal.ts:1361-1410) -/

/-- Source: the `frameRule` union type of the configuration
(`"always_frame" | "never_frame" | "frame_if_lines"`). -/
inductive FrameRule
  | always_frame
  | never_frame
  | frame_if_lines
deriving DecidableEq, Repr

/-- Source: `CommandLineAction.matchType` (`"name" | "regexp"`). -/
inductive MatchType
  | name
  | regexp
deriving DecidableEq, Repr

/-- Source: `CommandLineAction` from the configuration store.  The source
field `match` is a Lean keyword and is rendered `matchStr`. -/
structure CommandLineAction where
  matchType : MatchType
  matchStr : String
  frameRule : FrameRule
  frameRuleLines : Int
deriving DecidableEq, Repr

/-- Source: the `frameRule`/`frameRuleLines` part of the general
configuration returned by `getGeneralConfig()`. -/
structure GeneralConfigModel where
  frameRule : FrameRule
  frameRuleLines : Int
deriving DecidableEq, Repr

/-- Source: the slice of `ConfigDatabase` read by `#commandNeedsFrame`:
`getCommandLineActionConfig() || []` and `getGeneralConfig()`. -/
structure ConfigDatabaseModel where
  commandLineActions : List CommandLineAction
  generalConfig : GeneralConfigModel
deriving DecidableEq, Repr

/-- Source: the `for` loop of `#commandLineActionMatches` (Terminal.ts:
1396-1405): every part of the matcher must be present and equal at the same
position of the command parts. -/
def matchPartsLoop : List String → List String → Bool
  | [], _ => true
  | _ :: _, [] => false
  | m :: ms, c :: cs => m == c && matchPartsLoop ms cs

/-- Source: `#commandLineActionMatches(command, cla)` (Terminal.ts:1391-1410).
`regexTest` models `(new RegExp(cla.match)).test(...)`, the one JavaScript
primitive left abstract. -/
def commandLineActionMatches (regexTest : String → String → Bool)
    (command : String) (cla : CommandLineAction) : Bool :=
  let cleanCommandLine := jsTrim command
  let commandParts := splitWs (jsTrim command)
  match cla.matchType with
  | .name =>
    let matcherParts := splitWs cla.matchStr
    matchPartsLoop matcherParts commandParts
  | .regexp => regexTest cla.matchStr cleanCommandLine

/-- Source: the rule-list loop of `#commandNeedsFrame` (Terminal.ts:
1367-1378): the first matching action decides; `none` means no action
matched and the global default applies. -/
def commandNeedsFrameLoop (regexTest : String → String → Bool)
    (commandLine : String) (linesOfOutput : Int) : List CommandLineAction → Option Bool
  | [] => none
  | cla :: rest =>
    if commandLineActionMatches regexTest commandLine cla then
      some (match cla.frameRule with
        | .always_frame => true
        | .never_frame => false
        | .frame_if_lines =>
          decide (linesOfOutput ≠ -1) && decide (cla.frameRuleLines < linesOfOutput))
    else commandNeedsFrameLoop regexTest commandLine linesOfOutput rest

/-- Source: `#commandNeedsFrame(commandLine, linesOfOutput=-1)`
(Terminal.ts:1361-1389).  A `none` command line models `null`, a `none`
config database models `this.#configDatabase === null`. -/
def commandNeedsFrame (configDatabase : Option ConfigDatabaseModel)
    (regexTest : String → String → Bool)
    (commandLine : Option String) (linesOfOutput : Int) : Bool :=
  match commandLine with
  | none => false
  | some cl =>
    if jsTrim cl == "" then false
    else
      match configDatabase with
      | none => false
      | some db =>
        match commandNeedsFrameLoop regexTest cl linesOfOutput db.commandLineActions with
        | some result => result
        | none =>
          match db.generalConfig.frameRule with
          | .always_frame => true
          | .never_frame => false
          | .frame_if_lines =>
            decide (linesOfOutput ≠ -1) && decide (db.generalConfig.frameRuleLines < linesOfOutput)

/-- Modelled from the spec (§4.4): how a single rule resolves — always-frame
is true, never-frame is false, frame-if-lines requires the line count to be
known (not `-1`) and strictly above the threshold.  Specification-side
definition compared against `commandNeedsFrame`. -/
def specFrameRuleResolve (rule : FrameRule) (threshold : Int) (linesOfOutput : Int) : Bool :=
  match rule with
  | .always_frame => true
  | .never_frame => false
  | .frame_if_lines => if linesOfOutput = -1 then false else decide (threshold < linesOfOutput)

/-! ## Frame finalization at BRACKET_END (Terminal.ts:1412-1510) -/

/-- The slice of `TerminalBlock` state touched by the frame-close paths:
its scrollback rows (abstracted to row identifiers), and the command line
and return code recorded by `setCommandLine` / `setReturnCode`.
`returnCode = none` models the `NaN` produced by a failed parse. -/
structure TerminalBlockModel where
  scrollbackLines : List Nat
  commandLine : Option String
  returnCode : Option Int
deriving DecidableEq, Repr

/-- Source: the block-finalizing tail of `#frameWithExistingDecoratedFrame`
(Terminal.ts:1457-1478): the existing terminal block is moved into the
pending decorated frame after `setCommandLine(this.#lastCommandLine)` and
`setReturnCode(Number.parseInt(returnCode, 10))`. -/
def frameWithExistingDecoratedFrame (lastCommandLine : Option String)
    (terminalBlock : TerminalBlockModel) (returnCode : String) : TerminalBlockModel :=
  { terminalBlock with
      commandLine := lastCommandLine,
      returnCode := jsParseIntDec returnCode }

/-- Source: `#frameWithoutDecoratedFrame(returnCode)` (Terminal.ts:1480-1510).
Inputs are the state it reads: `#lastCommandLine`, `#lastCommandTerminalRow`,
the active block's scrollback rows and the emulator cursor row.  The result
is the decorated frame's new terminal block (`takeScrollbackFrom`,
`setReturnCode`, `setCommandLine`), or `none` when the early
`if (!commandShouldBeFramed) return;` fires and no frame is created. -/
def frameWithoutDecoratedFrame (configDatabase : Option ConfigDatabaseModel)
    (regexTest : String → String → Bool)
    (lastCommandLine : Option String) (lastCommandTerminalRow : Nat)
    (activeScrollbackLines : List Nat) (cursorRow : Nat) (returnCode : String) :
    Option TerminalBlockModel :=
  let scrollbackOutputLength : Int :=
    (activeScrollbackLines.length : Int) - (lastCommandTerminalRow : Int)
  let effectiveScreenLength : Int := (cursorRow : Int)
  let commandShouldBeFramed :=
    (returnCode != "0") ||
      commandNeedsFrame configDatabase regexTest lastCommandLine
        (scrollbackOutputLength + effectiveScreenLength)
  if commandShouldBeFramed then
    some { scrollbackLines := activeScrollbackLines.drop lastCommandTerminalRow,
           commandLine := lastCommandLine,
           returnCode := jsParseIntDec returnCode }
  else
    none

/-! ## Scrollback line-cap enforcement (Terminal.ts:1558-1600) -/

/-- One entry of `#blockFrames`, reduced to what
`#enforceScrollbackLinesSize` inspects: whether `frame.getBlock()` is a
`TerminalBlock` (with its scrollback rows and metadata) or some other block
kind (which contributes no scrollback rows). -/
inductive ScrollbackBlock
  | terminal (block : TerminalBlockModel)
  | other
deriving DecidableEq, Repr

/-- Scrollback-row contribution of one block: the
`if (block instanceof TerminalBlock) currentHeight += block.getScrollbackLength()`
step of the enforcement loops. -/
def blockScrollbackContrib : ScrollbackBlock → Nat
  | .terminal b => b.scrollbackLines.length
  | .other => 0

/-- Total scrollback rows retained across a block list. -/
def totalScrollbackLines : List ScrollbackBlock → Nat
  | [] => 0
  | b :: rest => blockScrollbackContrib b + totalScrollbackLines rest

/-- The code's accounting of the scrollback retained outside the visible
viewport: the first `rows` scrollback lines above the live screen count as
potentially visible (the loop starts at `currentHeight = -size.rows`,
Terminal.ts:1566), so the outside-viewport amount is the total minus the
viewport row count. -/
def scrollbackOutsideViewport (rows : Int) (blocks : List ScrollbackBlock) : Int :=
  (totalScrollbackLines blocks : Int) - rows

/-- Source: the scan loop of `#enforceScrollbackLinesSize`
(Terminal.ts:1565-1573), walking the block list newest-first.  Returns the
final `currentHeight` and the number of blocks the loop processed (the
source's `blockIndex` is `list length - processed - 1`). -/
def enforceWalk (maxScrollbackLines : Int) : Int → List ScrollbackBlock → Int × Nat
  | h, [] => (h, 0)
  | h, b :: rest =>
    if maxScrollbackLines ≤ h then (h, 0)
    else
      match enforceWalk maxScrollbackLines (h + (blockScrollbackContrib b : Int)) rest with
      | (h2, k) => (h2, k + 1)

/-- Source: the trimming tail of `#enforceScrollbackLinesSize`
(Terminal.ts:1579-1599), phrased over the newest-first list `rev` walked by
`enforceWalk`.  `k` blocks were processed, so the straddling block
`this.#blockFrames[blockIndex]` (after `blockIndex++`) is `rev.get? (k-1)`;
it loses its `currentHeight - maxScrollbackLines` oldest rows via
`deleteTopLines`, and the final `while` loop removes every older frame,
leaving (in oldest-first order) the trimmed block followed by the newer
blocks `(rev.take (k-1)).reverse`.  `k = 0` means the source would index
past the array (`this.#blockFrames[blockFrames.length]`) and throw;
`none` models that. -/
def enforceTrim (maxScrollbackLines : Int) (h : Int) (rev : List ScrollbackBlock)
    (k : Nat) : Option (List ScrollbackBlock) :=
  match k with
  | 0 => none
  | k' + 1 =>
    match rev.get? k' with
    | none => none
    | some b =>
      let lineCount := (h - maxScrollbackLines).toNat
      let trimmed := match b with
        | .terminal tb =>
          ScrollbackBlock.terminal { tb with scrollbackLines := tb.scrollbackLines.drop lineCount }
        | .other => b
      some (trimmed :: (rev.take k').reverse)

/-- Source: `#enforceScrollbackLinesSize(maxScrollbackLines)`
(Terminal.ts:1558-1600) on a block list in oldest-first order (the order of
`this.#blockFrames`), with `rows` the viewport row count from
`#computeTerminalSize()`.  When the scan ends below the cap nothing changes;
otherwise the straddling block is trimmed and all older blocks removed. -/
def enforceScrollbackLinesSize (rows maxScrollbackLines : Int)
    (blocks : List ScrollbackBlock) : Option (List ScrollbackBlock) :=
  let rev := blocks.reverse
  let w := enforceWalk maxScrollbackLines (-rows) rev
  if w.1 < maxScrollbackLines then some blocks
  else enforceTrim maxScrollbackLines w.1 rev w.2

/-! ## Frame replay requests (Terminal.ts:1619-1665) -/

/-- Observable effect of `#handleRequestFrame`: nothing (no frame finder
registered), an error marker written back to the pty, or an upload of the
located bulk file.  `α` is the bulk-file type, opaque to the engine. -/
inductive RequestFrameEffect (α : Type)
  | noFrameFinder
  | sendToPty (text : String)
  | upload (bulkFile : α)
deriving DecidableEq, Repr

/-- Source: `#handleRequestFrame(frameId)` (Terminal.ts:1619-1665).
`frameFinder` models the `#frameFinder` collaborator (`none` = `null`); a
lookup miss writes the literal `"#error\n"` to the pty and starts no
upload; a hit starts the `BulkFileUploader` on the located file. -/
def handleRequestFrame {α : Type} (frameFinder : Option (String → Option α))
    (frameId : String) : RequestFrameEffect α :=
  match frameFinder with
  | none => .noFrameFinder
  | some finder =>
    match finder frameId with
    | none => .sendToPty "#error\n"
    | some bulkFile => .upload bulkFile

/-! ## Upload input-stream filter (Terminal.ts:985-1004, 1642-1652) -/

/-- Observable behaviour of one call of the upload input filter: the string
it forwards, whether it called `uploader.abort()`, and whether it disposed
its own registration. -/
structure UploadFilterResult where
  forwarded : String
  uploadAborted : Bool
  filterRemoved : Bool
deriving DecidableEq, Repr

/-- The interrupt byte `"\x03"` (ctrl-C) searched for by the filter. -/
def ctrlC : Char := Char.ofNat 3

/-- Source: the input filter registered during a frame-replay upload
(Terminal.ts:1642-1652): input containing ctrl-C aborts the upload, removes
the filter and forwards only `input.substring(ctrlCIndex + 1)`; any other
input is swallowed (the filter returns `""`). -/
def uploadInputStreamFilter (input : String) : UploadFilterResult :=
  match firstIdxOf ctrlC input.data with
  | some ctrlCIndex =>
    { forwarded := jsSubstringFrom input (ctrlCIndex + 1),
      uploadAborted := true,
      filterRemoved := true }
  | none =>
    { forwarded := "", uploadAborted := false, filterRemoved := false }

/-- The filter as the plain `InputStreamFilter` function stored in
`#inputStreamFilters`. -/
def uploadFilterFn (input : String) : String :=
  (uploadInputStreamFilter input).forwarded

/-- Source: `#handleTermData(event)` (Terminal.ts:985-995): terminal input is
threaded through every registered filter and sent to the pty only when the
filtered result is non-empty (`none` = nothing sent). -/
def handleTermData (inputStreamFilters : List (String → String))
    (data : String) : Option String :=
  let filteredData := inputStreamFilters.foldl (fun d f => f d) data
  if filteredData == "" then none else some filteredData

/-! ## Concrete example data used by witnesses -/

/-- Configuration whose global default is `never_frame`, with no per-command
actions. -/
def demoNeverFrameDb : ConfigDatabaseModel :=
  { commandLineActions := [],
    generalConfig := { frameRule := .never_frame, frameRuleLines := 0 } }

/-- Configuration with a single name-matching `always_frame` action for
`ls`. -/
def demoAlwaysLsDb : ConfigDatabaseModel :=
  { commandLineActions :=
      [{ matchType := .name, matchStr := "ls", frameRule := .always_frame, frameRuleLines := 0 }],
    generalConfig := { frameRule := .never_frame, frameRuleLines := 0 } }

/-- A regexp test that never matches (used where the regexp branch is
irrelevant). -/
def demoRegexTest : String → String → Bool := fun _ _ => false

/-- Two terminal blocks, oldest first: 4 retained rows then 2 retained
rows. -/
def demoBlocks : List ScrollbackBlock :=
  [ .terminal { scrollbackLines := [1, 2, 3, 4], commandLine := some "make", returnCode := some 0 },
    .terminal { scrollbackLines := [5, 6], commandLine := none, returnCode := none } ]

/-- Enforcing `maxScrollbackLines = 2` with a 1-row viewport on `demoBlocks`
trims the older block to its newest row. -/
def demoEnforced : List ScrollbackBlock :=
  [ .terminal { scrollbackLines := [4], commandLine := some "make", returnCode := some 0 },
    .terminal { scrollbackLines := [5, 6], commandLine := none, returnCode := none } ]

/-- A standalone terminal block used by witnesses. -/
def demoEnforcedBlock : TerminalBlockModel :=
  { scrollbackLines := [7, 8], commandLine := none, returnCode := none }

/-- A frame finder that knows no frame. -/
def demoEmptyFinder : String → Option Nat := fun _ => none

/-- A frame finder resolving frame id `"7"` to bulk file `42`. -/
def demoFinder : String → Option Nat := fun frameId => if frameId = "7" then some 42 else none

/-! ## Theorems -/

/-- Claim C1: for every parameter list delivered at application-mode start,
if the list is empty or its first parameter differs from the per-session
cookie, `#handleApplicationModeStart` returns the ABORT action and no
sub-mode is selected: the active application-mode state (and the bracket
style) is left exactly as it was, so no BRACKET_START event can result. -/
theorem handleApplicationModeStart_cookie_guard
    (downloadStart : List String → ApplicationModeResponseAction)
    (cookie : String) (st : AppModeState) (params : List String)
    (hcookie : ∀ p, params.head? = some p → p ≠ cookie) :
    (handleApplicationModeStart downloadStart cookie st params).action =
      ApplicationModeResponseAction.ABORT ∧
    (handleApplicationModeStart downloadStart cookie st params).state.applicationMode =
      st.applicationMode ∧
    (handleApplicationModeStart downloadStart cookie st params).state.bracketStyle =
      st.bracketStyle := by
  cases params with
  | nil => simp [handleApplicationModeStart]
  | cons p0 rest =>
    have hp := hcookie p0 rfl
    simp [handleApplicationModeStart, hp]

/-- Witness for C1: cookie `"abc123"`, params `["zzz"]`. -/
theorem handleApplicationModeStart_cookie_guard_witness :
    (handleApplicationModeStart (fun _ => ApplicationModeResponseAction.CONTINUE) "abc123"
        { applicationMode := .APPLICATION_MODE_NONE, applicationModeData := none,
          bracketStyle := none } ["zzz"]).action = ApplicationModeResponseAction.ABORT ∧
    (handleApplicationModeStart (fun _ => ApplicationModeResponseAction.CONTINUE) "abc123"
        { applicationMode := .APPLICATION_MODE_NONE, applicationModeData := none,
          bracketStyle := none } ["zzz"]).state.applicationMode =
      ApplicationMode.APPLICATION_MODE_NONE ∧
    (handleApplicationModeStart (fun _ => ApplicationModeResponseAction.CONTINUE) "abc123"
        { applicationMode := .APPLICATION_MODE_NONE, applicationModeData := none,
          bracketStyle := none } ["zzz"]).state.bracketStyle = none :=
  handleApplicationModeStart_cookie_guard _ "abc123" _ ["zzz"]
    (by intro p hp; simp at hp; subst hp; decide)

/-- Counterexample to C7 as stated: with active sub-mode SHOW_FILE,
`#handleApplicationModeEnd` returns early through the download collaborator
and neither resets the sub-mode to NONE nor clears the accumulation
buffer. -/
theorem handleApplicationModeEnd_showFile_counterexample :
    ((handleApplicationModeEnd ApplicationModeResponseAction.CONTINUE
        { applicationMode := .APPLICATION_MODE_SHOW_FILE, applicationModeData := some "x",
          bracketStyle := none }).state.applicationMode ≠
      ApplicationMode.APPLICATION_MODE_NONE) ∧
    ((handleApplicationModeEnd ApplicationModeResponseAction.CONTINUE
        { applicationMode := .APPLICATION_MODE_SHOW_FILE, applicationModeData := some "x",
          bracketStyle := none }).state.applicationModeData ≠ none) := by
  decide

/-- Claim C7 (amended): for the buffering sub-modes BRACKET_START,
BRACKET_END and REQUEST_FRAME, after `#handleApplicationModeEnd` completes
the active sub-mode is reset to NONE and the accumulation buffer is cleared
(the SHOW_FILE case instead returns the download collaborator's response
without resetting). -/
theorem handleApplicationModeEnd_buffering_reset
    (downloadStop : ApplicationModeResponseAction) (st : AppModeState)
    (hmode : st.applicationMode = ApplicationMode.APPLICATION_MODE_OUTPUT_BRACKET_START ∨
      st.applicationMode = ApplicationMode.APPLICATION_MODE_OUTPUT_BRACKET_END ∨
      st.applicationMode = ApplicationMode.APPLICATION_MODE_REQUEST_FRAME) :
    (handleApplicationModeEnd downloadStop st).state.applicationMode =
      ApplicationMode.APPLICATION_MODE_NONE ∧
    (handleApplicationModeEnd downloadStop st).state.applicationModeData = none := by
  rcases hmode with h | h | h <;> simp [handleApplicationModeEnd, h]

/-- Witness for C7 (amended): BRACKET_END with a pending buffer. -/
theorem handleApplicationModeEnd_buffering_reset_witness :
    (handleApplicationModeEnd ApplicationModeResponseAction.CONTINUE
        { applicationMode := .APPLICATION_MODE_OUTPUT_BRACKET_END,
          applicationModeData := some "0", bracketStyle := none }).state.applicationMode =
      ApplicationMode.APPLICATION_MODE_NONE ∧
    (handleApplicationModeEnd ApplicationModeResponseAction.CONTINUE
        { applicationMode := .APPLICATION_MODE_OUTPUT_BRACKET_END,
          applicationModeData := some "0", bracketStyle := none }).state.applicationModeData =
      none :=
  handleApplicationModeEnd_buffering_reset ApplicationModeResponseAction.CONTINUE _
    (Or.inr (Or.inl rfl))

/-- Claim C9: a REQUEST_FRAME completion whose frame identifier the
frame-lookup collaborator does not resolve makes the engine write the
explicit error marker `"#error\n"` back to the pty and start no upload; a
resolved identifier uploads the located bulk file instead. -/
theorem handleRequestFrame_lookup {α : Type} (finder : String → Option α)
    (frameId : String) :
    (finder frameId = none →
      handleRequestFrame (some finder) frameId = RequestFrameEffect.sendToPty "#error\n" ∧
      ∀ bulkFile : α, handleRequestFrame (some finder) frameId ≠
        RequestFrameEffect.upload bulkFile) ∧
    (∀ bulkFile : α, finder frameId = some bulkFile →
      handleRequestFrame (some finder) frameId = RequestFrameEffect.upload bulkFile) := by
  constructor
  · intro h
    simp [handleRequestFrame, h]
  · intro bulkFile h
    simp [handleRequestFrame, h]

/-- Witness for C9: an unknown id `"9"` and a known id `"7"`. -/
theorem handleRequestFrame_lookup_witness :
    handleRequestFrame (some demoEmptyFinder) "9" =
      RequestFrameEffect.sendToPty "#error\n" ∧
    handleRequestFrame (some demoFinder) "7" = RequestFrameEffect.upload 42 :=
  ⟨((handleRequestFrame_lookup demoEmptyFinder "9").1 rfl).1,
    (handleRequestFrame_lookup demoFinder "7").2 42 (by decide)⟩

/-- Claim C10: while a frame-replay upload is in progress, the registered
input-stream filter swallows every input without the interrupt byte 0x03
(the filter yields `""` and nothing reaches the pty), while an input
containing 0x03 aborts the upload, removes the filter, and forwards exactly
the text after the first 0x03; with the filter gone, normal pty routing
resumes. -/
theorem uploadInputStreamFilter_spec (input : String) :
    (firstIdxOf ctrlC input.data = none →
      uploadInputStreamFilter input =
        { forwarded := "", uploadAborted := false, filterRemoved := false } ∧
      handleTermData [uploadFilterFn] input = none) ∧
    (∀ i, firstIdxOf ctrlC input.data = some i →
      (uploadInputStreamFilter input).uploadAborted = true ∧
      (uploadInputStreamFilter input).filterRemoved = true ∧
      (uploadInputStreamFilter input).forwarded = jsSubstringFrom input (i + 1) ∧
      handleTermData [uploadFilterFn] input =
        (if jsSubstringFrom input (i + 1) = "" then none
         else some (jsSubstringFrom input (i + 1)))) ∧
    (∀ s : String, s ≠ "" → handleTermData [] s = some s) := by
  refine ⟨?_, ?_, ?_⟩
  · intro h
    constructor
    · simp [uploadInputStreamFilter, h]
    · simp [handleTermData, uploadFilterFn, uploadInputStreamFilter, h]
  · intro i h
    refine ⟨?_, ?_, ?_, ?_⟩
    · simp [uploadInputStreamFilter, h]
    · simp [uploadInputStreamFilter, h]
    · simp [uploadInputStreamFilter, h]
    · simp only [handleTermData, List.foldl, uploadFilterFn, uploadInputStreamFilter, h]
      split <;> rename_i hsplit <;> simp_all [beq_iff_eq]
  · intro s hs
    simp [handleTermData, hs]

/-- Witness for C10: input `"ab\x03cd"` (first 0x03 at index 2) and the
ctrl-C-free input `"abcd"`. -/
theorem uploadInputStreamFilter_spec_witness :
    (uploadInputStreamFilter "ab\x03cd").uploadAborted = true ∧
    (uploadInputStreamFilter "ab\x03cd").forwarded = jsSubstringFrom "ab\x03cd" (2 + 1) ∧
    handleTermData [uploadFilterFn] "abcd" = none := by
  have h1 := (uploadInputStreamFilter_spec "ab\x03cd").2.1 2 (by decide)
  have h2 := (uploadInputStreamFilter_spec "abcd").1 (by decide)
  exact ⟨h1.1, h1.2.2.1, h2.2⟩

/-- Counterexample to C2 as stated: with the global rule `never_frame` (so
no rule passes the deferred threshold test) but exit-code payload `"1"`,
`#frameWithoutDecoratedFrame` still creates a frame — the return-code test
short-circuits the rule evaluation. -/
theorem frameWithoutDecoratedFrame_counterexample :
    commandNeedsFrame (some demoNeverFrameDb) demoRegexTest (some "ls") 0 = false ∧
    (frameWithoutDecoratedFrame (some demoNeverFrameDb) demoRegexTest (some "ls")
        0 [] 0 "1").isSome = true := by
  decide

/-- Claim C2 (amended): if at BRACKET_START the frame-open decision was not
"frame", then for a BRACKET_END whose exit-code payload is `"0"`, a frame is
materialized retroactively exactly when the deferred threshold test,
evaluated with the now-known output line count (scrollback output length
plus cursor row), says yes; a payload differing from `"0"` forces a frame
unconditionally (see C3). -/
theorem frameWithoutDecoratedFrame_zeroExit (configDatabase : Option ConfigDatabaseModel)
    (regexTest : String → String → Bool) (lastCommandLine : Option String)
    (lastCommandTerminalRow : Nat) (activeScrollbackLines : List Nat) (cursorRow : Nat) :
    (frameWithoutDecoratedFrame configDatabase regexTest lastCommandLine
        lastCommandTerminalRow activeScrollbackLines cursorRow "0").isSome =
      commandNeedsFrame configDatabase regexTest lastCommandLine
        ((activeScrollbackLines.length : Int) - (lastCommandTerminalRow : Int) +
          (cursorRow : Int)) := by
  have h0 : (("0" : String) != "0") = false := by decide
  simp only [frameWithoutDecoratedFrame, h0, Bool.false_or]
  cases hc : commandNeedsFrame configDatabase regexTest lastCommandLine
      ((activeScrollbackLines.length : Int) - (lastCommandTerminalRow : Int) +
        (cursorRow : Int)) <;>
    simp [hc]

/-- Claim C3: at BRACKET_END with no empty decorated frame pending, a frame
is created whenever the exit-code payload differs from `"0"`, regardless of
the configured frame rules — the return-code test short-circuits before
`#commandNeedsFrame` is consulted. -/
theorem frameWithoutDecoratedFrame_nonzeroExit (configDatabase : Option ConfigDatabaseModel)
    (regexTest : String → String → Bool) (lastCommandLine : Option String)
    (lastCommandTerminalRow : Nat) (activeScrollbackLines : List Nat) (cursorRow : Nat)
    (returnCode : String) (hrc : returnCode ≠ "0") :
    (frameWithoutDecoratedFrame configDatabase regexTest lastCommandLine
        lastCommandTerminalRow activeScrollbackLines cursorRow returnCode).isSome = true := by
  have hb : (returnCode != "0") = true := by simpa [bne_iff_ne] using hrc
  simp [frameWithoutDecoratedFrame, hb]

/-- Witness for C3: payload `"1"` with a matching `never_frame`
configuration. -/
theorem frameWithoutDecoratedFrame_nonzeroExit_witness :
    (frameWithoutDecoratedFrame (some demoNeverFrameDb) demoRegexTest (some "ls")
        0 [0, 1] 3 "1").isSome = true :=
  frameWithoutDecoratedFrame_nonzeroExit (some demoNeverFrameDb) demoRegexTest (some "ls")
    0 [0, 1] 3 "1" (by decide)

/-- Claim C4: for every BRACKET_END whose accumulated payload does not parse
as a decimal exit code (`Number.parseInt` yields NaN), frame finalization
still completes on both close paths — the frame is closed with its command
line set — and the recorded exit code falls back to the NaN default rather
than the close failing. -/
theorem frameClose_parse_failure_default (payload : String)
    (hnan : jsParseIntDec payload = none)
    (configDatabase : Option ConfigDatabaseModel) (regexTest : String → String → Bool)
    (lastCommandLine : Option String) (terminalBlock : TerminalBlockModel)
    (lastCommandTerminalRow : Nat) (activeScrollbackLines : List Nat) (cursorRow : Nat) :
    ((frameWithExistingDecoratedFrame lastCommandLine terminalBlock payload).commandLine =
        lastCommandLine ∧
      (frameWithExistingDecoratedFrame lastCommandLine terminalBlock payload).returnCode =
        none) ∧
    (∃ newBlock,
      frameWithoutDecoratedFrame configDatabase regexTest lastCommandLine
          lastCommandTerminalRow activeScrollbackLines cursorRow payload = some newBlock ∧
      newBlock.commandLine = lastCommandLine ∧ newBlock.returnCode = none) := by
  have hz : payload ≠ "0" := by
    intro he
    rw [he] at hnan
    exact absurd hnan (by decide)
  have hb : (payload != "0") = true := by simpa [bne_iff_ne] using hz
  refine ⟨⟨?_, ?_⟩, ?_⟩
  · simp [frameWithExistingDecoratedFrame]
  · simp [frameWithExistingDecoratedFrame, hnan]
  · refine ⟨{ scrollbackLines := activeScrollbackLines.drop lastCommandTerminalRow,
              commandLine := lastCommandLine, returnCode := jsParseIntDec payload },
      ?_, rfl, ?_⟩
    · simp [frameWithoutDecoratedFrame, hb]
    · simp [hnan]

/-- Witness for C4: the unparseable payload `"abc"`. -/
theorem frameClose_parse_failure_default_witness :
    ((frameWithExistingDecoratedFrame (some "ls") demoEnforcedBlock "abc").commandLine =
        some "ls" ∧
      (frameWithExistingDecoratedFrame (some "ls") demoEnforcedBlock "abc").returnCode =
        none) ∧
    (∃ newBlock,
      frameWithoutDecoratedFrame (some demoNeverFrameDb) demoRegexTest (some "ls")
          0 [0, 1] 2 "abc" = some newBlock ∧
      newBlock.commandLine = some "ls" ∧ newBlock.returnCode = none) :=
  frameClose_parse_failure_default "abc" (by decide) (some demoNeverFrameDb) demoRegexTest
    (some "ls") demoEnforcedBlock 0 [0, 1] 2

/-- The first index found by `firstIdxOf` is in range, and dropping up to it
is the same as dropping the maximal `≠ c` prefix. -/
theorem firstIdxOf_drop (c : Char) : ∀ (l : List Char) (n : Nat),
    firstIdxOf c l = some n →
    l.drop n = l.dropWhile (fun x => decide (x ≠ c)) ∧ n < l.length := by
  intro l
  induction l with
  | nil => intro n h; simp [firstIdxOf] at h
  | cons x xs ih =>
    intro n h
    by_cases hx : x = c
    · subst hx
      simp [firstIdxOf] at h
      subst h
      refine ⟨?_, by simp⟩
      simp [List.dropWhile]
    · rw [firstIdxOf, if_neg hx] at h
      cases hfs : firstIdxOf c xs with
      | none => rw [hfs] at h; simp at h
      | some m =>
        rw [hfs] at h
        simp at h
        subst h
        obtain ⟨hdrop, hlt⟩ := ih m hfs
        refine ⟨?_, by simpa using hlt⟩
        simpa [List.dropWhile, hx] using hdrop

/-- Slicing a string at the `indexOf` result of a present character equals
dropping its maximal `≠ c`-prefix. -/
theorem jsSliceFrom_firstIdx (s : String) (c : Char) (n : Nat)
    (h : firstIdxOf c s.data = some n) :
    jsSliceFrom s (jsIndexOfChar s c) =
      ⟨s.data.dropWhile (fun x => decide (x ≠ c))⟩ := by
  obtain ⟨hdrop, hlt⟩ := firstIdxOf_drop c s.data n h
  have hidx : jsIndexOfChar s c = (n : Int) := by
    unfold jsIndexOfChar
    rw [h]
  have hn0 : ¬ ((n : Int) < 0) := by simp
  have hmin : min (n : Int) ((s.data.length : Nat) : Int) = (n : Int) :=
    min_eq_left (by exact_mod_cast Nat.le_of_lt hlt)
  simp only [jsSliceFrom, hidx, if_neg hn0, hmin, Int.toNat_natCast, hdrop]

/-- Counterexample to C5 as stated: under bracket style `"bash"`, the
payload `"42\tls -la"` has its first whitespace at the tab, but the code
slices at the first space character and records `"-la"`, not the
`"ls -la"` the slice-at-first-whitespace reading produces. -/
theorem cleanCommandLine_counterexample :
    cleanCommandLineOf (some "bash") "42\tls -la" = "-la" ∧
    specBashCleanAtWhitespace "42\tls -la" = "ls -la" ∧
    ("-la" : String) ≠ "ls -la" := by
  decide

/-- Claim C5 (amended): for every BRACKET_START under bracket style
`"bash"` whose trimmed payload contains a space character, the recorded
clean command line is the trimmed payload sliced at its first space
character (U+0020 — not at the first whitespace generally) with the
remainder trimmed; under any other bracket style the payload is recorded
unmodified. -/
theorem cleanCommandLine_space_slice (payload : String)
    (hspace : firstIdxOf ' ' (jsTrim payload).data ≠ none) :
    cleanCommandLineOf (some "bash") payload = specBashCleanAtSpace payload ∧
    (∀ style : Option String, style ≠ some "bash" →
      cleanCommandLineOf style payload = payload) := by
  constructor
  · obtain ⟨n, hn⟩ := Option.ne_none_iff_exists'.mp hspace
    unfold cleanCommandLineOf specBashCleanAtSpace
    rw [if_pos rfl]
    show jsTrim (jsSliceFrom (jsTrim payload) (jsIndexOfChar (jsTrim payload) ' ')) =
      jsTrim ⟨(jsTrim payload).data.dropWhile (fun c => decide (c ≠ ' '))⟩
    rw [jsSliceFrom_firstIdx _ _ n hn]
  · intro style hstyle
    unfold cleanCommandLineOf
    rw [if_neg hstyle]

/-- Witness for C5 (amended): payload `"42 ls -la"` records `"ls -la"`. -/
theorem cleanCommandLine_space_slice_witness :
    cleanCommandLineOf (some "bash") "42 ls -la" = specBashCleanAtSpace "42 ls -la" ∧
    (∀ style : Option String, style ≠ some "bash" →
      cleanCommandLineOf style "42 ls -la" = "42 ls -la") :=
  cleanCommandLine_space_slice "42 ls -la" (by decide)

/-- The rule-list loop of `#commandNeedsFrame` returns the resolution of the
first matching command-line action, i.e. of `List.find?` over the matcher. -/
theorem commandNeedsFrameLoop_eq_find (regexTest : String → String → Bool)
    (cl : String) (linesOfOutput : Int) :
    ∀ actions : List CommandLineAction,
      commandNeedsFrameLoop regexTest cl linesOfOutput actions =
        (actions.find? (fun cla => commandLineActionMatches regexTest cl cla)).map
          (fun cla => specFrameRuleResolve cla.frameRule cla.frameRuleLines linesOfOutput) := by
  intro actions
  induction actions with
  | nil => rfl
  | cons cla rest ih =>
    by_cases h : commandLineActionMatches regexTest cl cla = true
    · rw [commandNeedsFrameLoop, if_pos h, List.find?_cons_of_pos _ h, Option.map_some']
      cases hr : cla.frameRule <;> simp only [specFrameRuleResolve]
      by_cases hn : linesOfOutput = -1 <;> simp [hn]
    · rw [commandNeedsFrameLoop, if_neg h,
        List.find?_cons_of_neg _ (by simpa using h), ih]

/-- Claim C6: with a non-blank command line and a present configuration
database, `#commandNeedsFrame(commandLine, linesOfOutput)` is decided by the
first per-command rule whose matcher matches (always_frame ↦ true,
never_frame ↦ false, frame_if_lines ↦ line count known and strictly above
the threshold), falling back to the global default rule under the same
mapping; and with the unknown line count `-1` every frame_if_lines rule
resolves to false, deferring the test. -/
theorem commandNeedsFrame_rule_order (db : ConfigDatabaseModel)
    (regexTest : String → String → Bool) (cl : String)
    (hcl : jsTrim cl ≠ "") (linesOfOutput : Int) :
    (commandNeedsFrame (some db) regexTest (some cl) linesOfOutput =
      match db.commandLineActions.find?
          (fun cla => commandLineActionMatches regexTest cl cla) with
      | some cla => specFrameRuleResolve cla.frameRule cla.frameRuleLines linesOfOutput
      | none => specFrameRuleResolve db.generalConfig.frameRule
          db.generalConfig.frameRuleLines linesOfOutput) ∧
    (∀ threshold : Int, specFrameRuleResolve .frame_if_lines threshold (-1) = false) := by
  constructor
  · have hbeq : (jsTrim cl == "") = false := by simpa using hcl
    rw [commandNeedsFrame]
    rw [if_neg (by simp [hcl])]
    rw [commandNeedsFrameLoop_eq_find]
    cases hf : db.commandLineActions.find?
        (fun cla => commandLineActionMatches regexTest cl cla) with
    | some cla => simp
    | none =>
      simp only [Option.map_none']
      cases hr : db.generalConfig.frameRule <;> simp only [specFrameRuleResolve]
      by_cases hn : linesOfOutput = -1 <;> simp [hn]
  · intro threshold
    simp [specFrameRuleResolve]

/-- Witness for C6: command `"ls"` with a matching `always_frame` action. -/
theorem commandNeedsFrame_rule_order_witness :
    (commandNeedsFrame (some demoAlwaysLsDb) demoRegexTest (some "ls") 0 =
      match demoAlwaysLsDb.commandLineActions.find?
          (fun cla => commandLineActionMatches demoRegexTest "ls" cla) with
      | some cla => specFrameRuleResolve cla.frameRule cla.frameRuleLines 0
      | none => specFrameRuleResolve demoAlwaysLsDb.generalConfig.frameRule
          demoAlwaysLsDb.generalConfig.frameRuleLines 0) ∧
    (∀ threshold : Int, specFrameRuleResolve .frame_if_lines threshold (-1) = false) :=
  commandNeedsFrame_rule_order demoAlwaysLsDb demoRegexTest "ls" (by decide) 0

/-- Total retained scrollback distributes over list append. -/
theorem totalScrollbackLines_append : ∀ l1 l2 : List ScrollbackBlock,
    totalScrollbackLines (l1 ++ l2) = totalScrollbackLines l1 + totalScrollbackLines l2 := by
  intro l1 l2
  induction l1 with
  | nil => simp [totalScrollbackLines]
  | cons b rest ih => simp [totalScrollbackLines, ih, Nat.add_assoc]

/-- Total retained scrollback is invariant under list reversal. -/
theorem totalScrollbackLines_reverse : ∀ l : List ScrollbackBlock,
    totalScrollbackLines l.reverse = totalScrollbackLines l := by
  intro l
  induction l with
  | nil => rfl
  | cons b rest ih =>
    simp only [List.reverse_cons, totalScrollbackLines_append, totalScrollbackLines, ih]
    omega

/-- Behaviour of the enforcement scan loop: it processes at most the whole
list; its final `currentHeight` is the start height plus the scrollback of
the processed prefix; it processes everything when it ends under the cap;
and before its last processed block the height was still under the cap. -/
theorem enforceWalk_spec (maxL : Int) : ∀ (l : List ScrollbackBlock) (h0 : Int),
    (enforceWalk maxL h0 l).2 ≤ l.length ∧
    (enforceWalk maxL h0 l).1 =
      h0 + (totalScrollbackLines (l.take (enforceWalk maxL h0 l).2) : Int) ∧
    ((enforceWalk maxL h0 l).1 < maxL → (enforceWalk maxL h0 l).2 = l.length) ∧
    (∀ k', (enforceWalk maxL h0 l).2 = k' + 1 →
      h0 + (totalScrollbackLines (l.take k') : Int) < maxL) := by
  intro l
  induction l with
  | nil =>
    intro h0
    refine ⟨Nat.le_refl _, by simp [enforceWalk, totalScrollbackLines], fun _ => rfl, ?_⟩
    intro k' hk
    simp [enforceWalk] at hk
  | cons b rest ih =>
    intro h0
    by_cases hstop : maxL ≤ h0
    · have he : enforceWalk maxL h0 (b :: rest) = (h0, 0) := by
        rw [enforceWalk, if_pos hstop]
      refine ⟨by simp [he], by simp [he, totalScrollbackLines], ?_, ?_⟩
      · intro hlt
        rw [he] at hlt
        exact absurd hlt (by simp; omega)
      · intro k' hk
        rw [he] at hk
        simp at hk
    · obtain ⟨ih1, ih2, ih3, ih4⟩ := ih (h0 + (blockScrollbackContrib b : Int))
      cases hw : enforceWalk maxL (h0 + (blockScrollbackContrib b : Int)) rest with
      | mk h2 k =>
        have he : enforceWalk maxL h0 (b :: rest) = (h2, k + 1) := by
          rw [enforceWalk, if_neg hstop, hw]
        rw [hw] at ih1 ih2 ih3 ih4
        dsimp only at ih1 ih2 ih3 ih4
        refine ⟨?_, ?_, ?_, ?_⟩
        · rw [he]
          simpa using Nat.succ_le_succ ih1
        · rw [he]
          simp only [List.take_succ_cons, totalScrollbackLines]
          push_cast
          omega
        · intro hlt
          rw [he] at hlt ⊢
          simp only [List.length_cons]
          have := ih3 hlt
          omega
        · intro k' hk
          rw [he] at hk
          simp only at hk
          cases k' with
          | zero =>
            simpa [List.take, totalScrollbackLines] using hstop
          | succ k'' =>
            have hk2 : k = k'' + 1 := by omega
            have := ih4 k'' hk2
            simp only [List.take_succ_cons, totalScrollbackLines]
            push_cast
            omega

/-- Claim C8: whenever `#enforceScrollbackLinesSize` completes, the retained
scrollback rows outside the viewport (in the code's accounting: total
scrollback minus the viewport row allowance the scan starts with) do not
exceed `maxScrollbackLines`; and when it trims, the one straddling block —
necessarily a terminal block — has exactly its excess oldest rows deleted
while its newer rows and its command-line/exit-code metadata are preserved,
and every block entirely older than it is removed. -/
theorem enforceScrollbackLinesSize_spec (rows maxLines : Int)
    (blocks blocks' : List ScrollbackBlock)
    (henf : enforceScrollbackLinesSize rows maxLines blocks = some blocks') :
    scrollbackOutsideViewport rows blocks' ≤ maxLines ∧
    (blocks' = blocks ∨
      ∃ older newer tb lineCount,
        blocks = older ++ ScrollbackBlock.terminal tb :: newer ∧
        lineCount ≤ tb.scrollbackLines.length ∧
        blocks' = ScrollbackBlock.terminal
            { tb with scrollbackLines := tb.scrollbackLines.drop lineCount } :: newer ∧
        scrollbackOutsideViewport rows blocks' = maxLines) := by
  obtain ⟨hk_le, hh_eq, hlt_all, hpre⟩ := enforceWalk_spec maxLines blocks.reverse (-rows)
  simp only [enforceScrollbackLinesSize] at henf
  by_cases hlt : (enforceWalk maxLines (-rows) blocks.reverse).1 < maxLines
  · rw [if_pos hlt] at henf
    have hbe : blocks' = blocks := by
      injection henf with h
      exact h.symm
    subst hbe
    refine ⟨?_, Or.inl rfl⟩
    have hkfull := hlt_all hlt
    rw [hkfull, List.take_length, totalScrollbackLines_reverse] at hh_eq
    unfold scrollbackOutsideViewport
    omega
  · rw [if_neg hlt] at henf
    unfold enforceTrim at henf
    cases hk : (enforceWalk maxLines (-rows) blocks.reverse).2 with
    | zero =>
      rw [hk] at henf
      exact absurd henf (by simp)
    | succ k' =>
      rw [hk] at henf
      dsimp only at henf
      cases hget : blocks.reverse.get? k' with
      | none =>
        rw [hget] at henf
        exact absurd henf (by simp)
      | some b =>
        rw [hget] at henf
        dsimp only at henf
        have hpre' := hpre k' hk
        rw [hk] at hh_eq
        have hget2 : blocks.reverse[k']? = some b := by
          rw [← List.get?_eq_getElem?]
          exact hget
        have hlen : k' < blocks.reverse.length := by
          rcases List.getElem?_eq_some.mp hget2 with ⟨h, _⟩
          exact h
        have htake : totalScrollbackLines (blocks.reverse.take (k' + 1)) =
            totalScrollbackLines (blocks.reverse.take k') + blockScrollbackContrib b := by
          rw [List.take_succ, hget2]
          simp [totalScrollbackLines_append, totalScrollbackLines]
        rw [htake] at hh_eq
        cases b with
        | other =>
          exfalso
          simp only [blockScrollbackContrib] at hh_eq
          push_cast at hh_eq
          omega
        | terminal tb =>
          dsimp only at henf
          have hbe : blocks' = ScrollbackBlock.terminal
              { tb with scrollbackLines := (tb.scrollbackLines.drop
                  (((enforceWalk maxLines (-rows) blocks.reverse).1 - maxLines).toNat)) } ::
              (blocks.reverse.take k').reverse := by
            injection henf with h
            exact h.symm
          set w1 := (enforceWalk maxLines (-rows) blocks.reverse).1 with hw1
          set T := totalScrollbackLines (blocks.reverse.take k') with hT
          set len := tb.scrollbackLines.length with hlen2
          set A := List.take k' blocks.reverse with hA
          set D := List.drop (k' + 1) blocks.reverse with hD
          have hcontrib : blockScrollbackContrib (ScrollbackBlock.terminal tb) = len := rfl
          rw [hcontrib] at hh_eq
          have hmax_le : maxLines ≤ w1 := le_of_not_lt hlt
          have hlc_lt : (w1 - maxLines).toNat < len := by
            push_cast at hh_eq
            omega
          have htot' : (totalScrollbackLines blocks' : Int) = maxLines + rows := by
            rw [hbe]
            simp only [totalScrollbackLines, blockScrollbackContrib, List.length_drop,
              totalScrollbackLines_reverse]
            push_cast at hh_eq ⊢
            omega
          refine ⟨by unfold scrollbackOutsideViewport; omega, Or.inr ?_⟩
          refine ⟨D.reverse, A.reverse,
            tb, (w1 - maxLines).toNat, ?_, Nat.le_of_lt hlc_lt, hbe,
            by unfold scrollbackOutsideViewport; omega⟩
          have hdropk : List.drop k' blocks.reverse =
              ScrollbackBlock.terminal tb :: D := by
            rw [hD, List.drop_eq_getElem_cons hlen]
            congr 1
            rcases List.getElem?_eq_some.mp hget2 with ⟨h, he⟩
            exact he
          have hsplit : blocks.reverse = A ++ ScrollbackBlock.terminal tb :: D := by
            rw [hA, ← hdropk, List.take_append_drop]
          have hrr : blocks = (A ++ ScrollbackBlock.terminal tb :: D).reverse := by
            rw [← hsplit, List.reverse_reverse]
          rw [hrr, List.reverse_append, List.reverse_cons, List.append_assoc,
            List.singleton_append]

/-- Witness for C8: cap 2 with a 1-row viewport over a 4-row old block and a
2-row new block — the old block is trimmed to its newest row, its metadata
kept. -/
theorem enforceScrollbackLinesSize_spec_witness :
    scrollbackOutsideViewport 1 demoEnforced ≤ 2 ∧
    (demoEnforced = demoBlocks ∨
      ∃ older newer tb lineCount,
        demoBlocks = older ++ ScrollbackBlock.terminal tb :: newer ∧
        lineCount ≤ tb.scrollbackLines.length ∧
        demoEnforced = ScrollbackBlock.terminal
            { tb with scrollbackLines := tb.scrollbackLines.drop lineCount } :: newer ∧
        scrollbackOutsideViewport 1 demoEnforced = 2) :=
  enforceScrollbackLinesSize_spec 1 2 demoBlocks demoEnforced (by decide)

end Extraterm
